import Mathlib

/-!
Verification development for the shell implemented in `src/src/main.c`
(Hirbod03/shell-c).  Each C function relevant to the checked properties is
shallowly embedded as a Lean definition; operating-system effects (the
filesystem, `open`, `readdir`, `access`) are passed in as explicit oracle
functions so that the control flow of the C code becomes a pure function.
Line references below point into `src/src/main.c`.
-/

namespace ShellC

/-- Byte classification of C `isspace` in the default locale:
space, tab, newline, vertical tab, form feed, carriage return. -/
def isSpaceC (c : Char) : Bool :=
  c == ' ' || c == '\t' || c == '\n' || c == '\x0b' || c == '\x0c' || c == '\r'

/-- The single-quote character `'` (written by code point to keep the file
free of quote-literal noise). -/
def squote : Char := '\x27'

/-- The double-quote character `"`. -/
def dquote : Char := '\x22'

/-- Embeds `token[len++] = c` guarded by `len < (int)sizeof(token) - 1`
where `char token[1024]` (main.c:455, 510-512): the character is appended
only while the token is shorter than 1023 bytes, otherwise it is dropped. -/
def appendTok (tok : String) (c : Char) : String :=
  if tok.length < 1023 then tok.push c else tok

/-- Embeds the scanning loop of `parse_command` (main.c:451-517).
State: remaining characters, `in_single_quote`, `in_double_quote`, the
token buffer built so far, and `argc` (number of tokens emitted so far).
The `[]` case is the `c == '\0'` delimiter branch (main.c:475-484); note
that a backslash as the last character breaks out of the loop *without*
finalizing the pending token (main.c:490, 505). Emission is guarded by
`argc < max_args - 1` (main.c:478). -/
def parseLoop (maxArgs : Nat) : List Char → Bool → Bool → String → Nat → List String
  | [], _, _, tok, argc =>
    if 0 < tok.length then
      (if argc < maxArgs - 1 then [tok] else [])
    else []
  | c :: rest, inS, inD, tok, argc =>
    if !inD && c == squote then
      parseLoop maxArgs rest (!inS) inD tok argc
    else if !inS && c == dquote then
      parseLoop maxArgs rest inS (!inD) tok argc
    else if !inS && !inD && isSpaceC c then
      if 0 < tok.length then
        if argc < maxArgs - 1 then
          tok :: parseLoop maxArgs rest inS inD "" (argc + 1)
        else
          parseLoop maxArgs rest inS inD "" argc
      else
        parseLoop maxArgs rest inS inD tok argc
    else if inD && c == '\\' then
      match rest with
      | [] => []
      | next :: rest2 =>
        if next == dquote || next == '\\' then
          parseLoop maxArgs rest2 inS inD (appendTok tok next) argc
        else
          parseLoop maxArgs rest2 inS inD (appendTok (appendTok tok '\\') next) argc
    else if !inS && !inD && c == '\\' then
      match rest with
      | [] => []
      | next :: rest2 => parseLoop maxArgs rest2 inS inD (appendTok tok next) argc
    else
      parseLoop maxArgs rest inS inD (appendTok tok c) argc

/-- Embeds `parse_command(line, argv, max_args)` (main.c:451): tokenize the
line starting outside all quotes with an empty token buffer, returning the
emitted tokens in order.  `main` calls it with `max_args = MAX_ARGS = 100`
(main.c:28, 892). -/
def parse_command (line : String) (maxArgs : Nat) : List String :=
  parseLoop maxArgs line.data false false "" 0

/-- Model of the `argv` array just after `parse_command` returns with
`MAX_ARGS = 100`: the `argc` emitted tokens followed by the null entry
written by `argv[argc] = NULL` (main.c:515). -/
def argvOf (line : String) : List (Option String) :=
  (parse_command line 100).map some ++ [none]

/-- A line of `n` one-letter words, used to exercise the `MAX_ARGS` cap. -/
def mkWords (n : Nat) : String :=
  String.join (List.replicate n "a ")

/-- The single-quote character as a one-character string, for building
test inputs without quote literals. -/
def squoteS : String := String.mk [squote]

/-- The redirection operator tokens recognized by `parse_redirections`
(main.c:715, 723, 731, 739). -/
def isRedirOp (t : String) : Bool :=
  t == ">" || t == "1>" || t == ">>" || t == "1>>" || t == "2>" || t == "2>>"

/-- Embeds the scanning loop of `parse_redirections` (main.c:712-757).
Arguments: remaining tokens and the current stdout / stderr redirection
accumulators, each an optional `(target, append-flag)` pair (a later
occurrence of the same stream overwrites the accumulator).  On a match
with a following token both operator and target are removed and scanning
continues at the same position (`i -= 1` then `i++`, main.c:755); an
operator with no following token sets `remove_count = 0` (main.c:716 etc.),
so it is left in the token sequence and no target is recorded. -/
def redirLoop : List String → Option (String × Bool) → Option (String × Bool) →
    List String × Option (String × Bool) × Option (String × Bool)
  | [], o, e => ([], o, e)
  | t :: rest, o, e =>
    if t == ">" || t == "1>" then
      match rest with
      | tgt :: rest2 => redirLoop rest2 (some (tgt, false)) e
      | [] => ([t], o, e)
    else if t == ">>" || t == "1>>" then
      match rest with
      | tgt :: rest2 => redirLoop rest2 (some (tgt, true)) e
      | [] => ([t], o, e)
    else if t == "2>" then
      match rest with
      | tgt :: rest2 => redirLoop rest2 o (some (tgt, false))
      | [] => ([t], o, e)
    else if t == "2>>" then
      match rest with
      | tgt :: rest2 => redirLoop rest2 o (some (tgt, true))
      | [] => ([t], o, e)
    else
      match redirLoop rest o e with
      | (r, o2, e2) => (t :: r, o2, e2)

/-- Result of `parse_redirections`: the remaining token sequence and the
four output parameters `*redirect_out`, `*redirect_out_append`,
`*redirect_err`, `*redirect_err_append` (main.c:705-710). -/
structure RedirResult where
  toks : List String
  out : Option String
  outApp : Bool
  err : Option String
  errApp : Bool
deriving DecidableEq, Repr

/-- Embeds `parse_redirections(&argc, argv, ...)` (main.c:705): all four
outputs start cleared (main.c:707-710); the append flag stays `0` when the
corresponding target was never set. -/
def parse_redirections (toks : List String) : RedirResult :=
  match redirLoop toks none none with
  | (r, o, e) =>
    { toks := r
      out := o.map Prod.fst
      outApp := (o.map Prod.snd).getD false
      err := e.map Prod.fst
      errApp := (e.map Prod.snd).getD false }

/-- What `main` decides to do with a parsed token sequence at the
pipeline-detection step (main.c:898-925). -/
inductive PipeDecision where
  | invalid : PipeDecision
  | single : List String → PipeDecision
  | pipeline : List String → List String → PipeDecision
deriving DecidableEq, Repr

/-- Embeds the pipeline detection in `main` (main.c:898-925): scan for the
first token equal to `"|"`; with no pipe the line is a normal command;
otherwise split there into `argv1 = argv[0..pipe_idx)` (`argc1 = pipe_idx`)
and `argv2 = argv[pipe_idx+1..argc)` (`argc2 = argc - (pipe_idx+1)`), and
run the pipeline when both `argc1 > 0 && argc2 > 0`, else report
"Invalid pipeline" and spawn nothing (main.c:921-925). -/
def pipelineDecision (toks : List String) : PipeDecision :=
  match toks.findIdx? (fun t => t == "|") with
  | none => PipeDecision.single toks
  | some i =>
    if 0 < i && 0 < toks.length - (i + 1) then
      PipeDecision.pipeline (toks.take i) (toks.drop (i + 1))
    else PipeDecision.invalid

/-- Embeds `ext_check(program_name)` (main.c:263-276) over the cached
directory list `path_dirs[0..path_count)`.  The filesystem is an oracle:
`fEx p` models `access(p, F_OK) == 0` and `fXok p` models
`access(p, X_OK) == 0`.  The candidate is `snprintf("%s/%s", dir, name)`;
the first directory whose candidate passes both checks wins, otherwise the
function returns none (NULL). -/
def ext_check (dirs : List String) (name : String) (fEx fXok : String → Bool) :
    Option String :=
  match dirs with
  | [] => none
  | d :: rest =>
    if fEx (d ++ "/" ++ name) && fXok (d ++ "/" ++ name) then
      some (d ++ "/" ++ name)
    else ext_check rest name fEx fXok

/-- The builtin registry names, in table order (main.c:99-106). -/
def builtinNames : List String := ["exit", "echo", "help", "type", "pwd", "cd"]

/-- `strncmp(s, px, strlen(px)) == 0`: `px` is a character-wise prefix
of `s`. -/
def strStarts (px s : String) : Bool := px.data.isPrefixOf s.data

/-- Embeds `get_completions(prefix, &matches)` (main.c:283-338).
Oracles: `listing d` models `opendir`/`readdir` over directory `d`
(`none` when `opendir` fails, otherwise the entry names in read order) and
`xok p` models `access(p, X_OK) == 0`.  An empty prefix returns zero
matches immediately (main.c:285) before any builtin or directory is
consulted.  Otherwise: builtins whose names start with the prefix are
collected in table order; then, for each `PATH` directory, every entry
starting with the prefix whose joined path is executable is appended
unless an equal string was already collected; finally the matches are
sorted with `qsort`/`strcmp` (main.c:335). -/
def get_completions (px : String) (dirs : List String)
    (listing : String → Option (List String)) (xok : String → Bool) :
    List String :=
  if px.length = 0 then []
  else
    let bmatches := builtinNames.filter (fun b => strStarts px b)
    let addDir := fun (acc : List String) (d : String) =>
      match listing d with
      | none => acc
      | some entries =>
        entries.foldl (fun acc2 e =>
          if strStarts px e then
            if xok (d ++ "/" ++ e) then
              if acc2.contains e then acc2 else acc2 ++ [e]
            else acc2
          else acc2) acc
    let allMatches := dirs.foldl addDir bmatches
    allMatches.mergeSort (fun a b => decide (a ≤ b))

/-- Embeds the completion-word extraction in the tab branch of
`read_input_line` (main.c:578-591): skip leading blanks (`' '` and
`'\t'`) from the START of the buffer, then copy characters from there up
to the first `isspace` character or 127 copied characters.  This is the
first word of the buffer, not the word at its end. -/
def extractWord (buffer : String) : String :=
  String.mk
    (((buffer.data.dropWhile (fun c => c == ' ' || c == '\t')).takeWhile
      (fun c => !isSpaceC c)).take 127)

/-- The completion prefix as the spec words it: "the whitespace-delimited
word ending at the buffer's end (the last word of the buffer, which is
empty if the buffer ends in whitespace or is empty)". Stated from the
spec, for comparison with `extractWord`. -/
def specLastWord (buffer : String) : String :=
  String.mk ((buffer.data.reverse.takeWhile (fun c => !isSpaceC c)).reverse)

/-- Common-prefix step of `find_lcp` (main.c:539-547): truncate the
running candidate at the first position where it disagrees with (or runs
past) the next match. -/
def commonPreL : List Char → List Char → List Char
  | x :: xs, y :: ys => if x == y then x :: commonPreL xs ys else []
  | _, _ => []

/-- String version of `commonPreL`. -/
def commonPre (a b : String) : String := String.mk (commonPreL a.data b.data)

/-- Embeds `find_lcp(matches, count)` (main.c:532-549): none for an empty
list, otherwise fold the pairwise common prefix over the matches starting
from the first. -/
def find_lcp (ms : List String) : Option String :=
  match ms with
  | [] => none
  | m :: rest => some (rest.foldl commonPre m)

/-- Observable outcome of one tab keystroke in `read_input_line`
(main.c:578-666): resulting buffer, whether the bell was rung, whether the
match list was printed, and the updated `tab_count`. -/
structure TabResult where
  buffer : String
  bell : Bool
  listed : Bool
  tabCount : Nat
deriving DecidableEq, Repr

/-- Embeds the `c == '\t'` branch of `read_input_line` (main.c:578-666)
with input buffer size 1024 (`command[1024]` in `main`, main.c:882).
Zero matches ring the bell and leave the buffer unchanged (main.c:596-599);
one match appends the missing suffix plus a space when it fits
(main.c:600-615); several matches extend by the longest common prefix, or
run the double-tab bell/list protocol when no extension is possible
(main.c:616-657). -/
def tabStep (buffer : String) (tabCount : Nat) (dirs : List String)
    (listing : String → Option (List String)) (xok : String → Bool) :
    TabResult :=
  let px := extractWord buffer
  let ms := get_completions px dirs listing xok
  match ms with
  | [] => { buffer := buffer, bell := true, listed := false, tabCount := 0 }
  | [m] =>
    if buffer.length + (m.length - px.length) + 1 < 1024 then
      { buffer := buffer ++ (m.drop px.length) ++ " "
        bell := false, listed := false, tabCount := 0 }
    else
      { buffer := buffer, bell := false, listed := false, tabCount := 0 }
  | m :: m2 :: rest =>
    let lcp := (m2 :: rest).foldl commonPre m
    if px.length < lcp.length then
      if buffer.length + (lcp.length - px.length) < 1024 then
        { buffer := buffer ++ (lcp.drop px.length)
          bell := false, listed := false, tabCount := 0 }
      else
        { buffer := buffer, bell := false, listed := false, tabCount := 0 }
    else
      if tabCount = 0 then
        { buffer := buffer, bell := true, listed := false, tabCount := 1 }
      else
        { buffer := buffer, bell := false, listed := true, tabCount := 0 }

/-- Embeds `save_and_redirect_fd(path, target_fd, append_mode)`
(main.c:379-390) with `open` as an oracle: on open failure
`setup_redirect_fd` prints the OS error via `perror` and returns -1, so
the saved descriptor is `none`; on success the duplicate of the original
descriptor is returned.  `dup`/`dup2` failures are not modeled (treated as
succeeding). -/
def save_and_redirect_fd (openOk : String → Bool) (path : String)
    (targetFd : Nat) : Option Nat :=
  if openOk path then some targetFd else none

/-- Observable outcome of dispatching a builtin with redirections in
`main` (main.c:941-960). -/
structure BuiltinRunResult where
  openErrorReported : Bool
  builtinRan : Bool
  outRedirected : Bool
  errRedirected : Bool
deriving DecidableEq, Repr

/-- Embeds the builtin branch of `main` (main.c:941-960): each present
redirection target is passed to `save_and_redirect_fd`; the result is
stored in `saved_stdout`/`saved_stderr` (-1, i.e. `none`, on failure) but
is never tested, and `builtins[i].func(argc, argv)` runs unconditionally
(main.c:953); afterwards `restore_fd` restores whatever was saved. -/
def dispatchBuiltinWithRedirect (rOut rErr : Option String)
    (openOk : String → Bool) : BuiltinRunResult :=
  let so := match rOut with
    | none => none
    | some p => save_and_redirect_fd openOk p 1
  let se := match rErr with
    | none => none
    | some p => save_and_redirect_fd openOk p 2
  { openErrorReported := (rOut.isSome && so.isNone) || (rErr.isSome && se.isNone)
    builtinRan := true
    outRedirected := so.isSome
    errRedirected := se.isSome }

/-- Embeds the child branch of `execute_external_program` (main.c:413-431):
`setup_redirect_fd` is called with `should_exit_on_error = 1`, so a failed
`open` prints the OS error and exits the child with status 1 before
`execv` is reached.  Returns whether `execv` is reached. -/
def externalChildReachesExec (rOut rErr : Option String)
    (openOk : String → Bool) : Bool :=
  match rOut with
  | some p =>
    if openOk p then
      match rErr with
      | some q => openOk q
      | none => true
    else false
  | none =>
    match rErr with
    | some q => openOk q
    | none => true

end ShellC

namespace ShellC

theorem appendTok_length_le (tok : String) (c : Char) (h : tok.length ≤ 1023) :
    (appendTok tok c).length ≤ 1023 := by
  unfold appendTok
  split
  · rename_i hlt
    simp only [String.length_push]
    omega
  · exact h

theorem parseLoop_inv (maxArgs : Nat) (chars : List Char) (inS inD : Bool)
    (tok : String) (argc : Nat) :
    tok.length ≤ 1023 →
    (∀ t ∈ parseLoop maxArgs chars inS inD tok argc, 0 < t.length ∧ t.length ≤ 1023) ∧
    (parseLoop maxArgs chars inS inD tok argc).length ≤ maxArgs - 1 - argc := by
  induction chars, inS, inD, tok, argc using parseLoop.induct maxArgs
  case case1 x y tok argc hpos hlt =>
    intro htok
    simp only [parseLoop, hpos, hlt, if_true]
    refine ⟨?_, by simp only [List.length_singleton]; omega⟩
    intro t ht
    simp only [List.mem_singleton] at ht
    subst ht
    exact ⟨hpos, htok⟩
  case case2 x y tok argc hpos hlt =>
    intro htok
    simp [parseLoop, hpos, hlt]
  case case3 x y tok argc hpos =>
    intro htok
    simp [parseLoop, hpos]
  case case4 c rest inS inD tok argc h1 ih =>
    intro htok
    rw [parseLoop.eq_def]
    simp only [h1, Bool.false_eq_true, if_true, if_false]
    exact ih htok
  case case5 c rest inS inD tok argc h1 h2 ih =>
    intro htok
    rw [parseLoop.eq_def]
    simp only [h1, h2, Bool.false_eq_true, if_true, if_false]
    exact ih htok
  case case6 c rest inS inD tok argc h1 h2 h3 hpos hlt ih =>
    intro htok
    have hrec := ih (by decide)
    have hlen := hrec.2
    rw [parseLoop.eq_def]
    simp only [h1, h2, h3, hpos, hlt, Bool.false_eq_true, if_true, if_false]
    constructor
    · intro t ht
      rcases List.mem_cons.mp ht with h | h
      · subst h; exact ⟨hpos, htok⟩
      · exact hrec.1 t h
    · simp only [List.length_cons]
      omega
  case case7 c rest inS inD tok argc h1 h2 h3 hpos hlt ih =>
    intro htok
    rw [parseLoop.eq_def]
    simp only [h1, h2, h3, hpos, hlt, Bool.false_eq_true, if_true, if_false]
    exact ih (by decide)
  case case8 c rest inS inD tok argc h1 h2 h3 hpos ih =>
    intro htok
    rw [parseLoop.eq_def]
    simp only [h1, h2, h3, hpos, Bool.false_eq_true, if_true, if_false]
    exact ih htok
  case case9 c inS inD tok argc h1 h2 h3 h4 =>
    intro htok
    simp [parseLoop, h1, h2, h3, h4]
  case case10 c inS inD tok argc h1 h2 h3 h4 next rest2 h6 ih =>
    intro htok
    simp only [parseLoop, h1, h2, h3, h4, h6, if_true, if_false]
    exact ih (appendTok_length_le tok next htok)
  case case11 c inS inD tok argc h1 h2 h3 h4 next rest2 h6 ih =>
    intro htok
    simp only [parseLoop, h1, h2, h3, h4, h6, if_true, if_false]
    exact ih (appendTok_length_le _ next (appendTok_length_le tok '\\' htok))
  case case12 c inS inD tok argc h1 h2 h3 h4 h5 =>
    intro htok
    simp [parseLoop, h1, h2, h3, h4, h5]
  case case13 c inS inD tok argc h1 h2 h3 h4 h5 next rest2 ih =>
    intro htok
    simp only [parseLoop, h1, h2, h3, h4, h5, if_true, if_false]
    exact ih (appendTok_length_le tok next htok)
  case case14 c rest inS inD tok argc h1 h2 h3 h4 h5 ih =>
    intro htok
    rw [parseLoop.eq_def]
    simp only [h1, h2, h3, h4, h5, Bool.false_eq_true, if_true, if_false]
    exact ih (appendTok_length_le tok c htok)

end ShellC

namespace ShellC

/-- C6: for every input line, no token produced by the tokenizer
(`parse_command` with `MAX_ARGS = 100`, as `main` calls it) is the empty
string: whitespace runs, end of line, and quote pairs enclosing nothing
never cause an empty token to be emitted. -/
theorem c6_no_empty_token (line : String) : "" ∉ parse_command line 100 := by
  intro hmem
  have h := (parseLoop_inv 100 line.data false false "" 0 (by decide)).1 "" hmem
  exact absurd h.1 (by decide)

theorem c6_no_empty_token_witness : "" ∉ parse_command "echo hi" 100 :=
  c6_no_empty_token "echo hi"

/-- C9: every token emitted by the tokenizer has length at most 1023
bytes: characters beyond the 1023-byte capacity of the token buffer are
silently dropped by `appendTok`, so no token ever exceeds it. -/
theorem c9_token_length_le_1023 (line : String) (t : String)
    (h : t ∈ parse_command line 100) : t.length ≤ 1023 :=
  ((parseLoop_inv 100 line.data false false "" 0 (by decide)).1 t h).2

theorem c9_token_length_le_1023_witness :
    "echo" ∈ parse_command "echo hi" 100 ∧ ("echo" : String).length ≤ 1023 :=
  ⟨by decide, c9_token_length_le_1023 "echo hi" "echo" (by decide)⟩

set_option maxRecDepth 4000 in
/-- C8: the tokenizer emits at most 99 (= MAX_ARGS - 1) tokens; the argv
array carries a null entry at index argc; and a concrete line of 150
words still yields exactly 99 tokens (words past the cap are silently
discarded). -/
theorem c8_max_args_cap (line : String) :
    (parse_command line 100).length ≤ 99 ∧
    (argvOf line)[(parse_command line 100).length]? = some none ∧
    (parse_command (mkWords 150) 100).length = 99 := by
  refine ⟨?_, ?_, by decide⟩
  · have h := (parseLoop_inv 100 line.data false false "" 0 (by decide)).2
    simpa using h
  · unfold argvOf
    rw [List.getElem?_append_right (by simp)]
    simp

/-- C7: tokenizing the line `echo 'a b' "c d" e\ f` (the single-quote
characters are spelled via `squoteS`) yields exactly
`["echo", "a b", "c d", "e f"]`: quotes dropped, escaped space kept. -/
theorem c7_quoting_example :
    parse_command ("echo " ++ squoteS ++ "a b" ++ squoteS ++ " \"c d\" e\\ f") 100
      = ["echo", "a b", "c d", "e f"] := by decide

theorem redirLoop_all_plain (ws : List String) (op : String)
    (hop : isRedirOp op = true) (hws : ∀ w ∈ ws, isRedirOp w = false) :
    ∀ (o e : Option (String × Bool)), redirLoop (ws ++ [op]) o e = (ws ++ [op], o, e) := by
  induction ws with
  | nil =>
    intro o e
    have hops : op = ">" ∨ op = "1>" ∨ op = ">>" ∨ op = "1>>" ∨ op = "2>" ∨ op = "2>>" := by
      simpa [isRedirOp, or_assoc] using hop
    rcases hops with h | h | h | h | h | h <;> subst h <;> rfl
  | cons w ws ih =>
    intro o e
    have hw := hws w (List.mem_cons_self w ws)
    have hrest : ∀ x ∈ ws, isRedirOp x = false := fun x hx =>
      hws x (List.mem_cons_of_mem w hx)
    have hn : ¬w = ">" ∧ ¬w = "1>" ∧ ¬w = ">>" ∧ ¬w = "1>>" ∧ ¬w = "2>" ∧ ¬w = "2>>" := by
      simpa [isRedirOp, and_assoc] using hw
    rw [List.cons_append, redirLoop.eq_def]
    simp only [Bool.or_eq_true, beq_iff_eq, hn.1, hn.2.1, hn.2.2.1, hn.2.2.2.1,
      hn.2.2.2.2.1, hn.2.2.2.2.2, or_self, if_false, ih hrest o e]

/-- C1 counterexample: on `["echo", ">"]` the resolver leaves the dangling
`>` operator in the returned token sequence (the claim says it is
removed), while the stdout target stays unset. -/
theorem c1_counterexample :
    (parse_redirections ["echo", ">"]).toks = ["echo", ">"] ∧
    ">" ∈ (parse_redirections ["echo", ">"]).toks ∧
    (parse_redirections ["echo", ">"]).out = none := by decide

/-- C1 (amended): a redirection operator in final position with no
following token leaves the redirection targets unset, and the operator
token is KEPT in the returned token sequence, not removed. -/
theorem c1_trailing_op_kept (ws : List String) (op : String)
    (hop : isRedirOp op = true) (hws : ∀ w ∈ ws, isRedirOp w = false) :
    (parse_redirections (ws ++ [op])).toks = ws ++ [op] ∧
    (parse_redirections (ws ++ [op])).out = none ∧
    (parse_redirections (ws ++ [op])).err = none := by
  have h := redirLoop_all_plain ws op hop hws none none
  simp [parse_redirections, h]

theorem c1_trailing_op_kept_witness :
    isRedirOp ">" = true ∧ (∀ w ∈ ["echo"], isRedirOp w = false) ∧
    (parse_redirections ["echo", ">"]).toks = ["echo", ">"] ∧
    (parse_redirections ["echo", ">"]).out = none ∧
    (parse_redirections ["echo", ">"]).err = none :=
  ⟨by decide, by decide, c1_trailing_op_kept ["echo"] ">" (by decide) (by decide)⟩

/-- C2 counterexample: the token sequence of `a | b | c` contains two
standalone `|` tokens, yet main does not reject it as an invalid
pipeline: it splits at the FIRST `|` and runs a two-stage pipeline whose
second command is `b | c`. -/
theorem c2_counterexample :
    (["a", "|", "b", "|", "c"].count "|" = 2) ∧
    pipelineDecision ["a", "|", "b", "|", "c"]
      = PipeDecision.pipeline ["a"] ["b", "|", "c"] ∧
    pipelineDecision ["a", "|", "b", "|", "c"] ≠ PipeDecision.invalid := by decide

/-- C2 (amended): with `i` the index of the FIRST `|` token, the line is
rejected as an invalid pipeline exactly when the segment before or after
that first `|` is empty; otherwise a two-stage pipeline runs on the split
at `i`, later `|` tokens remaining ordinary arguments of command 2. -/
theorem c2_first_pipe_split (toks : List String) (i : Nat)
    (h : toks.findIdx? (fun t => t == "|") = some i) :
    (pipelineDecision toks = PipeDecision.invalid ↔ (i = 0 ∨ toks.length ≤ i + 1)) ∧
    (0 < i → i + 1 < toks.length →
      pipelineDecision toks = PipeDecision.pipeline (toks.take i) (toks.drop (i + 1))) := by
  have hd : pipelineDecision toks =
      if 0 < i && 0 < toks.length - (i + 1) then
        PipeDecision.pipeline (toks.take i) (toks.drop (i + 1))
      else PipeDecision.invalid := by
    unfold pipelineDecision
    rw [h]
  rw [hd]
  by_cases hc : (0 < i && 0 < toks.length - (i + 1)) = true
  · have hp : 0 < i ∧ 0 < toks.length - (i + 1) := by
      simpa [Bool.and_eq_true, decide_eq_true_eq] using hc
    rw [if_pos hc]
    exact ⟨⟨fun hfalse => PipeDecision.noConfusion hfalse,
            fun hor => absurd hor (by omega)⟩,
           fun _ _ => rfl⟩
  · have hp : i = 0 ∨ toks.length ≤ i + 1 := by
      simp only [Bool.and_eq_true, decide_eq_true_eq] at hc
      omega
    rw [if_neg hc]
    exact ⟨⟨fun _ => hp, fun _ => rfl⟩, fun ha hb => absurd hp (by omega)⟩

theorem c2_first_pipe_split_witness :
    (["a", "|", "b", "|", "c"].findIdx? (fun t => t == "|") = some 1) ∧
    pipelineDecision ["a", "|", "b", "|", "c"]
      = PipeDecision.pipeline ["a"] ["b", "|", "c"] :=
  ⟨by decide,
   (c2_first_pipe_split ["a", "|", "b", "|", "c"] 1 (by decide)).2
     (by decide) (by decide)⟩

/-- C3 (code-bug evidence): at buffer `"echo fo"` the completion prefix
extracted by the tab handler is the FIRST word `"echo"` of the buffer,
not the last word `"fo"` that the claim (and the handler's own comment,
main.c:579 "Isolate the last word the user was typing") describes. -/
theorem c3_first_word_not_last :
    extractWord "echo fo" = "echo" ∧
    specLastWord "echo fo" = "fo" ∧
    extractWord "echo fo" ≠ specLastWord "echo fo" := by decide

/-- C4 counterexample: with a stdout redirection whose target fails to
open, the builtin dispatch in main reports the error but still runs the
builtin, while the claim says the command is not run. -/
theorem c4_counterexample :
    (dispatchBuiltinWithRedirect (some "out.txt") none (fun _ => false)).builtinRan
      = true ∧
    (dispatchBuiltinWithRedirect (some "out.txt") none
      (fun _ => false)).openErrorReported = true := by
  exact ⟨rfl, rfl⟩

/-- C4 (amended): when a redirection target cannot be opened the OS error
is reported, and an external command's child exits before reaching execv
(the program is not run); but a BUILTIN is still executed, with the
affected stream left unredirected.  The REPL loop continues in all
cases. -/
theorem c4_redirect_open_failure (p : String) (rErr : Option String)
    (openOk : String → Bool) (h : openOk p = false) :
    (dispatchBuiltinWithRedirect (some p) rErr openOk).openErrorReported = true ∧
    (dispatchBuiltinWithRedirect (some p) rErr openOk).builtinRan = true ∧
    (dispatchBuiltinWithRedirect (some p) rErr openOk).outRedirected = false ∧
    externalChildReachesExec (some p) rErr openOk = false := by
  refine ⟨?_, rfl, ?_, ?_⟩
  · simp [dispatchBuiltinWithRedirect, save_and_redirect_fd, h]
  · simp [dispatchBuiltinWithRedirect, save_and_redirect_fd, h]
  · simp [externalChildReachesExec, h]

theorem c4_redirect_open_failure_witness :
    ((fun _ => false : String → Bool) "out.txt" = false) ∧
    (dispatchBuiltinWithRedirect (some "out.txt") none
      (fun _ => false)).openErrorReported = true ∧
    (dispatchBuiltinWithRedirect (some "out.txt") none
      (fun _ => false)).builtinRan = true ∧
    (dispatchBuiltinWithRedirect (some "out.txt") none
      (fun _ => false)).outRedirected = false ∧
    externalChildReachesExec (some "out.txt") none (fun _ => false) = false :=
  ⟨rfl, c4_redirect_open_failure "out.txt" none (fun _ => false) rfl⟩

/-- C5: ext_check returns the joined path `dir ++ "/" ++ name` under the
earliest directory of the cached list whose candidate both exists and is
executable (first match wins), and returns none exactly when no directory
yields a hit. -/
theorem c5_ext_check_first_match (dirs : List String) (name : String)
    (fEx fXok : String → Bool) :
    ext_check dirs name fEx fXok =
      (dirs.find? (fun d => fEx (d ++ "/" ++ name) && fXok (d ++ "/" ++ name))).map
        (fun d => d ++ "/" ++ name) ∧
    (ext_check dirs name fEx fXok = none ↔
      ∀ d ∈ dirs, ¬(fEx (d ++ "/" ++ name) = true ∧ fXok (d ++ "/" ++ name) = true)) := by
  have hmain : ∀ ds : List String, ext_check ds name fEx fXok =
      (ds.find? (fun d => fEx (d ++ "/" ++ name) && fXok (d ++ "/" ++ name))).map
        (fun d => d ++ "/" ++ name) := by
    intro ds
    induction ds with
    | nil => rfl
    | cons d rest ih =>
      rw [ext_check]
      by_cases hd : (fEx (d ++ "/" ++ name) && fXok (d ++ "/" ++ name)) = true
      · simp [List.find?_cons, hd]
      · simp [List.find?_cons, hd, ih]
  refine ⟨hmain dirs, ?_⟩
  rw [hmain dirs]
  simp [List.find?_eq_none, Bool.and_eq_true]

/-- C10: when the extracted completion prefix is empty, get_completions
returns zero matches for every builtin registry and PATH state (it
returns before scanning either), so the tab handler rings the bell and
leaves the buffer unchanged. -/
theorem c10_empty_word_bell (buffer : String) (tc : Nat) (dirs : List String)
    (listing : String → Option (List String)) (xok : String → Bool)
    (h : extractWord buffer = "") :
    get_completions "" dirs listing xok = [] ∧
    tabStep buffer tc dirs listing xok =
      { buffer := buffer, bell := true, listed := false, tabCount := 0 } := by
  have hz : get_completions "" dirs listing xok = [] := by
    simp [get_completions]
  refine ⟨hz, ?_⟩
  simp [tabStep, h, hz]

theorem c10_empty_word_bell_witness :
    extractWord " " = "" ∧
    get_completions "" ["bin"] (fun _ => some ["cat"]) (fun _ => true) = [] ∧
    tabStep " " 1 ["bin"] (fun _ => some ["cat"]) (fun _ => true) =
      { buffer := " ", bell := true, listed := false, tabCount := 0 } :=
  ⟨by decide,
   c10_empty_word_bell " " 1 ["bin"] (fun _ => some ["cat"]) (fun _ => true)
     (by decide)⟩

end ShellC
